import Mathlib

/-!
Verification of the 5×5 median-filter program (`medianFilter.go`).

The program converts an image to an 8-bit luminance grid, applies a 5×5
median filter (radius 2) over row bands, and merges the band results.
We embed the core (the `medianFilter` kernel and the band coordinator in
`filter`) as executable Lean functions over `Nat`-valued grids; samples
are the `uint8` values of the Go code, so the narrowing conversion
`uint8(...)` is modelled by `% 256`.

Coordinates are natural numbers: the coordinator only ever supplies
non-negative bounds with `startY ≤ endY` and `startX ≤ endX`, and with
`Nat` subtraction `endY - startY` the empty-interior behaviour of the Go
loops `for i := radius+startY; i < endY-radius` is preserved for all
such bounds.  I/O, decoding and encoding are outside the model.
-/

namespace MedianGo

/-- Go `makeMatrix`: a zero-initialised `height × width` grid. -/
def makeMatrix (height width : Nat) : List (List Nat) :=
  List.replicate height (List.replicate width 0)

/-- Go `makeImmutableMatrix`: wraps a grid in a read-only getter closure.
    (Go panics on out-of-range access; here out-of-range reads default
    to 0, which no in-scope caller exercises — see the frame theorem.) -/
def makeImmutableMatrix (matrix : List (List Nat)) : Nat → Nat → Nat :=
  fun y x => (matrix.getD y []).getD x 0

/-- Insertion of a value into a sorted list, auxiliary to `sortNat`. -/
def insertSorted (x : Nat) : List Nat → List Nat
  | [] => [x]
  | y :: ys => if x ≤ y then x :: y :: ys else y :: insertSorted x ys

/-- Insertion sort on `List Nat`: the model of Go's `sort.Ints` on the
    25-element window buffer (any sorting algorithm produces the same
    sorted list from the same multiset of values). -/
def sortNat : List Nat → List Nat
  | [] => []
  | x :: xs => insertSorted x (sortNat xs)

/-- The 25 window samples collected by the inner loops of `medianFilter`
    around the cell with local coordinates `(r, c)` (global coordinates
    `(startY + r, startX + c)`): buffer slot `count = 5*(k-(i-2)) + (l-(j-2))`
    holds `data k l`, for `k ∈ [i-2, i+2]`, `l ∈ [j-2, j+2]`, exactly the
    row-major fill order of the Go loops.  Only evaluated for interior
    cells, where `2 ≤ r` and `2 ≤ c`. -/
def windowValues (startY startX : Nat) (data : Nat → Nat → Nat) (r c : Nat) : List Nat :=
  (List.range 25).map (fun n =>
    data (startY + r - 2 + n / 5) (startX + c - 2 + n % 5))

/-- Go `midPoint := (5*5 + 1) / 2`, the index used into the sorted
    25-element window buffer. -/
def midPoint : Nat := (5 * 5 + 1) / 2

/-- The value of one output cell of `medianFilter`, at local coordinates
    `(r, c)`.  The Go loops write exactly the cells with global row
    `i ∈ [startY+radius, endY-radius)` and global column
    `j ∈ [startX+radius, endX-radius)` — i.e. `2 ≤ r ∧ r + 2 < endY - startY`
    and likewise for columns — and every other cell keeps its
    zero-initialised value.  The written value is
    `uint8(filterValues[midPoint])` after `sort.Ints(filterValues)`. -/
def medianFilterCell (startY endY startX endX : Nat)
    (data : Nat → Nat → Nat) (r c : Nat) : Nat :=
  if 2 ≤ r ∧ r + 2 < endY - startY ∧ 2 ≤ c ∧ c + 2 < endX - startX then
    (sortNat (windowValues startY startX data r c)).getD midPoint 0 % 256
  else 0

/-- Go `medianFilter`: the filtered `(endY-startY) × (endX-startX)` grid. -/
def medianFilter (startY endY startX endX : Nat)
    (data : Nat → Nat → Nat) : List (List Nat) :=
  (List.range (endY - startY)).map (fun r =>
    (List.range (endX - startX)).map (fun c =>
      medianFilterCell startY endY startX endX data r c))

/-- Band start row in the coordinator: `startY := t * partitionSize`
    with `partitionSize := height / threads`. -/
def bandStart (height threads t : Nat) : Nat := t * (height / threads)

/-- Band end row in the coordinator: `endY := (t+1) * partitionSize`,
    overridden to `height` for the last band. -/
def bandEnd (height threads t : Nat) : Nat :=
  if t = threads - 1 then height else (t + 1) * (height / threads)

/-- The merge loop of `filter`: copy rows `0 .. part.length - 1` of a
    band's partial result into rows `startY .. startY + part.length - 1`
    of the accumulated output grid (each partial row spans the full
    width, so whole rows are replaced). -/
def overwriteRows (acc : List (List Nat)) (startY : Nat)
    (part : List (List Nat)) : List (List Nat) :=
  (List.range acc.length).map (fun i =>
    if startY ≤ i ∧ i < startY + part.length then part.getD (i - startY) []
    else acc.getD i [])

/-- Go `filter`, with decoding/encoding stripped away: the coordinator
    mapping `(height, width, threads, data)` to the final pixel grid.
    `threads = 1` invokes the kernel once over the full region; otherwise
    one kernel invocation per band is merged into a zero grid, bands
    processed in index order (the Go code receives each band's channel in
    that same order, so the sequential fold is a faithful model of the
    fan-out/fan-in).  `threads = 0` is `none`: the Go code panics there
    with a division by zero (as a negative count panics in `make`), so no
    grid is ever produced. -/
def filterRun (height width threads : Nat) (data : Nat → Nat → Nat) :
    Option (List (List Nat)) :=
  if threads = 0 then none
  else if threads = 1 then some (medianFilter 0 height 0 width data)
  else some ((List.range threads).foldl (fun acc t =>
    overwriteRows acc (bandStart height threads t)
      (medianFilter (bandStart height threads t) (bandEnd height threads t)
        0 width data))
    (makeMatrix height width))

/-- Read a grid cell, defaulting to 0 out of range. -/
def gridGet (g : List (List Nat)) (i j : Nat) : Nat :=
  (g.getD i []).getD j 0

end MedianGo

namespace MedianGo

/-! ## Helper lemmas -/

/-- Reading a cell of the kernel's output inside its dimensions gives the
    per-cell value. -/
theorem gridGet_medianFilter (startY endY startX endX : Nat)
    (data : Nat → Nat → Nat) (r c : Nat)
    (hr : r < endY - startY) (hc : c < endX - startX) :
    gridGet (medianFilter startY endY startX endX data) r c =
      medianFilterCell startY endY startX endX data r c := by
  simp [gridGet, medianFilter, List.getD_eq_getElem?_getD, List.getElem?_map,
    List.getElem?_range, hr, hc]

/-- Inserting a value into a constant list of copies of itself. -/
theorem insertSorted_replicate (n c : Nat) :
    insertSorted c (List.replicate n c) = List.replicate (n + 1) c := by
  cases n <;> simp [insertSorted, List.replicate_succ]

/-- Sorting a constant list is the identity. -/
theorem sortNat_replicate (n c : Nat) :
    sortNat (List.replicate n c) = List.replicate n c := by
  induction n with
  | zero => rfl
  | succ n ih => rw [List.replicate_succ, sortNat, ih, insertSorted_replicate]; rfl

/-- The window collected from a constant source is constant. -/
theorem windowValues_const (startY startX r c v : Nat) :
    windowValues startY startX (fun _ _ => v) r c = List.replicate 25 v := rfl

end MedianGo

namespace MedianGo

/-! ## Claim theorems -/

/-- C1: the spec says an interior output value is the 13th smallest
    (index 12) of the sorted 25-sample window.  The code instead uses
    `midPoint = (5*5+1)/2 = 13` as a 0-based index, i.e. the 14th
    smallest.  On the 5×5 region whose samples are `5*y + x` (the values
    `0..24`, each once), the sorted window is `[0, 1, ..., 24]`, the 13th
    smallest is 12, and yet the single interior output cell is 13. -/
theorem C1_midpoint_off_by_one_eval :
    gridGet (medianFilter 0 5 0 5 (fun y x => 5 * y + x)) 2 2 = 13 ∧
    sortNat (windowValues 0 0 (fun y x => 5 * y + x) 2 2) = List.range 25 ∧
    midPoint = 13 := by decide

/-- C2 counterexample: with height 10 and threadCount 20 (so
    `bandHeight = 10 / 20 = 0`), no configuration error is reported; the
    run proceeds, dispatches all 20 bands, and — since every band except
    the last is empty and the last covers `[0, 10)` — returns the full
    single-kernel result. -/
theorem C2_counterexample :
    filterRun 10 10 20 (fun _ _ => 100) =
      some (medianFilter 0 10 0 10 (fun _ _ => 100)) := by decide

/-- C2 amended: the coordinator performs no configuration validation at
    all.  For every threadCount ≥ 1 — including counts exceeding the
    image height, where bands degenerate — the run proceeds to compute
    bands and returns a result grid; threadCount ≤ 0 instead aborts with
    a runtime panic (division by zero), not a reported error. -/
theorem C2_no_validation (height width threads : Nat)
    (data : Nat → Nat → Nat) (ht : 1 ≤ threads) :
    ∃ g, filterRun height width threads data = some g := by
  unfold filterRun
  rw [if_neg (by omega)]
  by_cases h1 : threads = 1 <;> simp [h1]

/-- Witness for C2 amended at height 3, width 3, 7 threads. -/
theorem C2_no_validation_witness :
    ∃ g, filterRun 3 3 7 (fun y x => y * 3 + x) = some g :=
  C2_no_validation 3 3 7 (fun y x => y * 3 + x) (by decide)

/-- C3: the 10×10 all-100 grid filtered with threadCount 1 is 100
    everywhere except a 2-pixel zero border; with threadCount 2 (bands
    `[0,5)` and `[5,10)`) rows 3, 4, 5, 6 are additionally zero, rows
    0, 1, 8, 9 are zero, and rows 2 and 7 keep 100 at their non-border
    columns. -/
theorem C3_flat_10x10_scenario :
    filterRun 10 10 1 (fun _ _ => 100) = some
      [[0, 0, 0, 0, 0, 0, 0, 0, 0, 0],
       [0, 0, 0, 0, 0, 0, 0, 0, 0, 0],
       [0, 0, 100, 100, 100, 100, 100, 100, 0, 0],
       [0, 0, 100, 100, 100, 100, 100, 100, 0, 0],
       [0, 0, 100, 100, 100, 100, 100, 100, 0, 0],
       [0, 0, 100, 100, 100, 100, 100, 100, 0, 0],
       [0, 0, 100, 100, 100, 100, 100, 100, 0, 0],
       [0, 0, 100, 100, 100, 100, 100, 100, 0, 0],
       [0, 0, 0, 0, 0, 0, 0, 0, 0, 0],
       [0, 0, 0, 0, 0, 0, 0, 0, 0, 0]] ∧
    filterRun 10 10 2 (fun _ _ => 100) = some
      [[0, 0, 0, 0, 0, 0, 0, 0, 0, 0],
       [0, 0, 0, 0, 0, 0, 0, 0, 0, 0],
       [0, 0, 100, 100, 100, 100, 100, 100, 0, 0],
       [0, 0, 0, 0, 0, 0, 0, 0, 0, 0],
       [0, 0, 0, 0, 0, 0, 0, 0, 0, 0],
       [0, 0, 0, 0, 0, 0, 0, 0, 0, 0],
       [0, 0, 0, 0, 0, 0, 0, 0, 0, 0],
       [0, 0, 100, 100, 100, 100, 100, 100, 0, 0],
       [0, 0, 0, 0, 0, 0, 0, 0, 0, 0],
       [0, 0, 0, 0, 0, 0, 0, 0, 0, 0]] := by decide

/-- C4: with threadCount 1 the coordinator returns exactly the result of
    one direct kernel invocation over the full region `[0,h) × [0,w)`. -/
theorem C4_single_thread_is_direct_kernel (height width : Nat)
    (data : Nat → Nat → Nat) :
    filterRun height width 1 data = some (medianFilter 0 height 0 width data) := by
  simp [filterRun]

end MedianGo

namespace MedianGo

/-- C6: in a region of height and width at least 5, every output cell
    within radius 2 of the top, bottom, left or right region bound is
    exactly 0. -/
theorem C6_border_zeroing (startY endY startX endX : Nat)
    (data : Nat → Nat → Nat) (r c : Nat)
    (hh : 5 ≤ endY - startY) (hw : 5 ≤ endX - startX)
    (hr : r < endY - startY) (hc : c < endX - startX)
    (hborder : r < 2 ∨ endY - startY ≤ r + 2 ∨ c < 2 ∨ endX - startX ≤ c + 2) :
    gridGet (medianFilter startY endY startX endX data) r c = 0 := by
  rw [gridGet_medianFilter startY endY startX endX data r c hr hc]
  unfold medianFilterCell
  rw [if_neg (by omega)]

/-- Witness for C6: top-border cell of a 5×5 region. -/
theorem C6_border_zeroing_witness :
    gridGet (medianFilter 0 5 0 5 (fun y x => y * x)) 0 3 = 0 :=
  C6_border_zeroing 0 5 0 5 (fun y x => y * x) 0 3 (by decide) (by decide)
    (by decide) (by decide) (Or.inl (by decide))

/-- C7: filtering a constant grid of height and width at least 5 over the
    full region yields that constant at every non-border cell (the sorted
    window is 25 copies of the constant, so any index picks it). -/
theorem C7_flat_interior_identity (v h w r c : Nat) (hv : v < 256)
    (hh : 5 ≤ h) (hw : 5 ≤ w) (hr2 : 2 ≤ r) (hrh : r + 2 < h)
    (hc2 : 2 ≤ c) (hcw : c + 2 < w) :
    gridGet (medianFilter 0 h 0 w (fun _ _ => v)) r c = v := by
  rw [gridGet_medianFilter 0 h 0 w (fun _ _ => v) r c (by omega) (by omega)]
  unfold medianFilterCell
  rw [if_pos (by omega)]
  rw [windowValues_const, sortNat_replicate]
  have hgd : (List.replicate 25 v).getD midPoint 0 = v := rfl
  rw [hgd, Nat.mod_eq_of_lt hv]

/-- Witness for C7: centre of an all-100 5×5 grid. -/
theorem C7_flat_interior_identity_witness :
    gridGet (medianFilter 0 5 0 5 (fun _ _ => 100)) 2 2 = 100 :=
  C7_flat_interior_identity 100 5 5 2 2 (by decide) (by decide) (by decide)
    (by decide) (by decide) (by decide) (by decide)

/-- C9: a region whose height or width is below 5 yields the
    zero-initialised grid of those dimensions, independent of the source
    — the kernel never reads it (the loops have empty interiors). -/
theorem C9_degenerate_region_all_zero (startY endY startX endX : Nat)
    (data : Nat → Nat → Nat)
    (hsmall : endY - startY < 5 ∨ endX - startX < 5) :
    medianFilter startY endY startX endX data =
      makeMatrix (endY - startY) (endX - startX) ∧
    ∀ other : Nat → Nat → Nat,
      medianFilter startY endY startX endX data =
        medianFilter startY endY startX endX other := by
  have hz : ∀ f : Nat → Nat → Nat,
      medianFilter startY endY startX endX f =
        makeMatrix (endY - startY) (endX - startX) := by
    intro f
    have hcell : ∀ r c, medianFilterCell startY endY startX endX f r c = 0 := by
      intro r c
      unfold medianFilterCell
      rw [if_neg (by omega)]
    unfold medianFilter makeMatrix
    simp [hcell, List.map_const', List.length_range]
  exact ⟨hz data, fun other => (hz data).trans (hz other).symm⟩

/-- Witness for C9: a 3×7 region (height below 5). -/
theorem C9_degenerate_region_all_zero_witness :
    medianFilter 0 3 0 7 (fun y x => y + x) = makeMatrix 3 7 ∧
    ∀ other : Nat → Nat → Nat,
      medianFilter 0 3 0 7 (fun y x => y + x) =
        medianFilter 0 3 0 7 other :=
  C9_degenerate_region_all_zero 0 3 0 7 (fun y x => y + x) (Or.inl (by decide))

/-- C10: the kernel only reads the source inside the region rectangle:
    two sources agreeing on `[startY,endY) × [startX,endX)` give equal
    outputs.  In particular, with bounds inside the backing grid's
    dimensions, every source access is in range. -/
theorem C10_kernel_reads_only_region (startY endY startX endX : Nat)
    (f g : Nat → Nat → Nat) (hy : startY ≤ endY) (hx : startX ≤ endX)
    (hagree : ∀ k l, startY ≤ k → k < endY → startX ≤ l → l < endX →
      f k l = g k l) :
    medianFilter startY endY startX endX f =
      medianFilter startY endY startX endX g := by
  unfold medianFilter
  refine List.map_congr_left ?_
  intro r hr
  rw [List.mem_range] at hr
  refine List.map_congr_left ?_
  intro c hc
  rw [List.mem_range] at hc
  unfold medianFilterCell
  by_cases hint : 2 ≤ r ∧ r + 2 < endY - startY ∧ 2 ≤ c ∧ c + 2 < endX - startX
  · obtain ⟨h1, h2, h3, h4⟩ := hint
    rw [if_pos ⟨h1, h2, h3, h4⟩, if_pos ⟨h1, h2, h3, h4⟩]
    have hwin : windowValues startY startX f r c =
        windowValues startY startX g r c := by
      unfold windowValues
      refine List.map_congr_left ?_
      intro n hn
      rw [List.mem_range] at hn
      exact hagree _ _ (by omega) (by omega) (by omega) (by omega)
    rw [hwin]
  · rw [if_neg hint, if_neg hint]

/-- Witness for C10: sources differing only outside `[0,6) × [0,6)`. -/
theorem C10_kernel_reads_only_region_witness :
    medianFilter 0 6 0 6 (fun y x => y * 10 + x) =
      medianFilter 0 6 0 6 (fun y x => if y < 6 then y * 10 + x else 77) :=
  C10_kernel_reads_only_region 0 6 0 6 (fun y x => y * 10 + x)
    (fun y x => if y < 6 then y * 10 + x else 77) (by decide) (by decide)
    (fun k l _ hk _ _ => by simp [hk])

end MedianGo

namespace MedianGo

/-- Distinct bands are ordered: an earlier band ends no later than a
    later band starts. -/
theorem bandEnd_le_bandStart (h t a b : Nat) (hab : a < b) (hb : b < t) :
    bandEnd h t a ≤ bandStart h t b := by
  unfold bandEnd bandStart
  rw [if_neg (by omega)]
  exact Nat.mul_le_mul_right _ (by omega)

/-- Every row below the image height lies in some band. -/
theorem band_cover (h t : Nat) (ht1 : 1 ≤ t) (hth : t ≤ h) (y : Nat)
    (hy : y < h) : ∃ i, i < t ∧ bandStart h t i ≤ y ∧ y < bandEnd h t i := by
  have hbh : 1 ≤ h / t := (Nat.one_le_div_iff (by omega)).mpr hth
  by_cases hcase : y / (h / t) < t - 1
  · refine ⟨y / (h / t), by omega, ?_, ?_⟩
    · exact Nat.div_mul_le_self y (h / t)
    · unfold bandEnd
      rw [if_neg (by omega)]
      have h1 := Nat.div_add_mod y (h / t)
      have h2 := Nat.mod_lt y (show 0 < h / t by omega)
      have h1' : y / (h / t) * (h / t) + y % (h / t) = y := by
        rw [Nat.mul_comm] at h1; exact h1
      rw [Nat.succ_mul]
      linarith
  · refine ⟨t - 1, by omega, ?_, ?_⟩
    · have hle : t - 1 ≤ y / (h / t) := by omega
      calc (t - 1) * (h / t) ≤ y / (h / t) * (h / t) :=
            Nat.mul_le_mul_right _ hle
        _ ≤ y := Nat.div_mul_le_self y (h / t)
    · unfold bandEnd
      rw [if_pos rfl]
      exact hy

/-- C5: for `1 ≤ threadCount ≤ height` the bands partition `[0, height)`
    exactly: the first band starts at 0, the last ends at `height`,
    consecutive bands are contiguous, every row lies in exactly one band,
    and the band heights sum to `height`. -/
theorem C5_bands_partition (h t : Nat) (ht1 : 1 ≤ t) (hth : t ≤ h) :
    bandStart h t 0 = 0 ∧
    bandEnd h t (t - 1) = h ∧
    (∀ i, i + 1 < t → bandEnd h t i = bandStart h t (i + 1)) ∧
    (∀ y, y < h → ∃ i, (i < t ∧ bandStart h t i ≤ y ∧ y < bandEnd h t i) ∧
      ∀ j, j < t → bandStart h t j ≤ y → y < bandEnd h t j → j = i) ∧
    (Finset.range t).sum (fun i => bandEnd h t i - bandStart h t i) = h := by
  refine ⟨by simp [bandStart], by simp [bandEnd], ?_, ?_, ?_⟩
  · intro i hi
    unfold bandEnd bandStart
    rw [if_neg (by omega)]
  · intro y hy
    obtain ⟨i, hit, his, hie⟩ := band_cover h t ht1 hth y hy
    refine ⟨i, ⟨hit, his, hie⟩, ?_⟩
    intro j hjt hjs hje
    by_contra hne
    rcases Nat.lt_or_ge j i with hji | hij
    · have hd := bandEnd_le_bandStart h t j i hji hit
      linarith
    · have hij' : i < j := by omega
      have hd := bandEnd_le_bandStart h t i j hij' hjt
      linarith
  · obtain ⟨m, rfl⟩ : ∃ m, t = m + 1 := ⟨t - 1, by omega⟩
    rw [Finset.sum_range_succ]
    have hlast : bandEnd h (m + 1) m - bandStart h (m + 1) m
        = h - m * (h / (m + 1)) := by
      unfold bandEnd bandStart
      rw [if_pos (by omega)]
    have hother : ∀ i ∈ Finset.range m,
        bandEnd h (m + 1) i - bandStart h (m + 1) i = h / (m + 1) := by
      intro i hi
      rw [Finset.mem_range] at hi
      unfold bandEnd bandStart
      rw [if_neg (by omega), Nat.succ_mul]
      exact Nat.add_sub_cancel_left _ _
    rw [Finset.sum_congr rfl hother, hlast, Finset.sum_const,
      Finset.card_range, smul_eq_mul]
    have hle : m * (h / (m + 1)) ≤ h := by
      calc m * (h / (m + 1)) ≤ (m + 1) * (h / (m + 1)) :=
            Nat.mul_le_mul_right _ (by omega)
        _ = h / (m + 1) * (m + 1) := Nat.mul_comm _ _
        _ ≤ h := Nat.div_mul_le_self h (m + 1)
    exact Nat.add_sub_cancel' hle

/-- Witness for C5 at height 5 and 2 threads (bands `[0,2)` and `[2,5)`). -/
theorem C5_bands_partition_witness :
    bandStart 5 2 0 = 0 ∧
    bandEnd 5 2 (2 - 1) = 5 ∧
    (∀ i, i + 1 < 2 → bandEnd 5 2 i = bandStart 5 2 (i + 1)) ∧
    (∀ y, y < 5 → ∃ i, (i < 2 ∧ bandStart 5 2 i ≤ y ∧ y < bandEnd 5 2 i) ∧
      ∀ j, j < 2 → bandStart 5 2 j ≤ y → y < bandEnd 5 2 j → j = i) ∧
    (Finset.range 2).sum (fun i => bandEnd 5 2 i - bandStart 5 2 i) = 5 :=
  C5_bands_partition 5 2 (by decide) (by decide)

end MedianGo
